import Mathlib

/-!
Shallow embedding of `superset-frontend/src/views/CRUD/data/database/DatabaseModal/index.tsx`.

The component keeps an in-progress database-connection draft in a reducer
(`dbReducer`) over `Partial<DatabaseObject> | null`, and wires it to a few
handlers: `testConnection`, `onClose`, `onSave`, `disableSave`, and the
effect that bulk-merges a completed detail fetch back into the draft.

JavaScript objects are modelled as association lists of string keys to
`JSVal` values (`JSObj`); a missing key reads as `undefined` (`JSVal.undef`),
matching property access on JS objects.  The nullable reducer state
`Partial<DatabaseObject> | null` is `Option JSObj` (`none` = `null`).
Side-effecting handlers are modelled as pure functions returning the list of
externally observable events they emit (`ModalEvent`).
-/

namespace DatabaseModal

/-- A JavaScript runtime value, as far as this module manipulates them:
`undefined`, strings, booleans, numbers, and plain objects. -/
inductive JSVal where
  | undef : JSVal
  | str : String → JSVal
  | boolV : Bool → JSVal
  | numV : Int → JSVal
  | objV : List (String × JSVal) → JSVal
deriving Repr

/-- A JavaScript object: an association list of own properties. -/
abbrev JSObj := List (String × JSVal)

/-- Property read `o.k`: the value of key `k`, or `undefined` when absent. -/
def JSObj.get (o : JSObj) (k : String) : JSVal :=
  match o.find? (fun p => p.1 == k) with
  | some p => p.2
  | none => JSVal.undef

/-- Whether the object has key `k` as an own property (even if its value is
`undefined`). -/
def JSObj.hasKey (o : JSObj) (k : String) : Bool :=
  o.any (fun p => p.1 == k)

/-- Property write (as done by a spread `{...o, k: v}` or an assignment
`o.k = v`): key `k` now maps to `v`; all other keys are unchanged. -/
def JSObj.set (o : JSObj) (k : String) (v : JSVal) : JSObj :=
  (k, v) :: o.filter (fun p => p.1 != k)

/-- Object spread `{...a, ...b}`: keys of `b` override keys of `a`. -/
def JSObj.spread (a b : JSObj) : JSObj :=
  b.foldl (fun acc p => acc.set p.1 p.2) a

/-- Rest destructuring `const { k, ...rest } = o`: `rest` is `o` without
key `k`. -/
def JSObj.remove (o : JSObj) (k : String) : JSObj :=
  o.filter (fun p => p.1 != k)

/-- JavaScript truthiness: `undefined`, `""`, `false` and `0` are falsy;
every object is truthy. -/
def JSVal.truthy : JSVal → Bool
  | .undef => false
  | .str s => s != ""
  | .boolV b => b
  | .numV n => n != 0
  | .objV _ => true

/-- JS `a || b`: `a` when truthy, otherwise `b`. -/
def jsOr (a b : JSVal) : JSVal :=
  if a.truthy then a else b

/-- JS `a && b`: `b` when `a` is truthy, otherwise `a`. -/
def jsAnd (a b : JSVal) : JSVal :=
  if a.truthy then b else a

/-- Optional-chained read `state?.k` on the nullable reducer state:
`undefined` when the state is `null`. -/
def jsGet (state : Option JSObj) (k : String) : JSVal :=
  match state with
  | some o => o.get k
  | none => JSVal.undef

/-- JS `String.prototype.trim()`: remove leading and trailing whitespace
characters (modelled with `Char.isWhitespace`). -/
def jsTrim (s : String) : String :=
  String.mk ((s.data.dropWhile Char.isWhitespace).rdropWhile Char.isWhitespace)

/-- Optional-chained `v?.trim()`.  `undefined` short-circuits; a string is
trimmed.  The TypeScript type `Partial<DatabaseObject>` declares the fields
this is applied to as `string | undefined`, so the remaining constructors
(on which the JS `.trim()` call would throw) cannot occur on well-typed
states; they are mapped to themselves. -/
def jsTrimOpt : JSVal → JSVal
  | .undef => .undef
  | .str s => .str (jsTrim s)
  | v => v

/-- JS `ToPropertyKey` coercion for a computed object key `[v]`. -/
def JSVal.asKey : JSVal → String
  | .str s => s
  | .boolV true => "true"
  | .boolV false => "false"
  | .numV n => toString n
  | .undef => "undefined"
  | .objV _ => "[object Object]"

/-- The numeric `ActionType` enum of the source (TypeScript enums without
initializers number their members 0, 1, 2, …). -/
def ActionType.textChange : Nat := 0

def ActionType.inputChange : Nat := 1

def ActionType.editorChange : Nat := 2

def ActionType.fetched : Nat := 3

def ActionType.initialLoad : Nat := 4

def ActionType.reset : Nat := 5

/-- A reducer action at runtime: the numeric `type` tag and the `payload`
object.  For the three field-change variants the payload carries the
`DBReducerPayloadType` keys (`name`, `value`, `type`, `checked`, `json`);
for `fetched` / `initialLoad` it is the partial record being merged; for
`reset` it is absent (the empty object reads every key as `undefined`,
just as an absent property does). -/
structure DBReducerAction where
  type : Nat
  payload : JSObj
deriving Repr

/-- Strict equality test `action.payload.type === 'checkbox'`. -/
def isCheckboxType : JSVal → Bool
  | .str s => s == "checkbox"
  | _ => false

/-- The normalized base computed at the top of `dbReducer`:
`{...(state || {}), database_name: state?.database_name?.trim() || '',
sqlalchemy_uri: state?.sqlalchemy_uri || ''}`. -/
def trimmedStateOf (state : Option JSObj) : JSObj :=
  ((state.getD []).set "database_name"
      (jsOr (jsTrimOpt (jsGet state "database_name")) (JSVal.str ""))).set
    "sqlalchemy_uri" (jsOr (jsGet state "sqlalchemy_uri") (JSVal.str ""))

/-- `dbReducer` from the source: normalizes the current state, then switches
on the action tag.  `initialLoad` and `fetched` share a case; `reset` shares
the `default` case, which returns the empty object. -/
def dbReducer (state : Option JSObj) (action : DBReducerAction) :
    Option JSObj :=
  let trimmedState := trimmedStateOf state
  if action.type = ActionType.inputChange then
    if isCheckboxType (action.payload.get "type") then
      some (trimmedState.set (action.payload.get "name").asKey
        (action.payload.get "checked"))
    else
      some (trimmedState.set (action.payload.get "name").asKey
        (action.payload.get "value"))
  else if action.type = ActionType.editorChange then
    some (trimmedState.set (action.payload.get "name").asKey
      (action.payload.get "json"))
  else if action.type = ActionType.textChange then
    some (trimmedState.set (action.payload.get "name").asKey
      (action.payload.get "value"))
  else if action.type = ActionType.initialLoad ∨
      action.type = ActionType.fetched then
    some (trimmedState.spread action.payload)
  else
    some []

/-- Folding a sequence of dispatched actions through the reducer. -/
def applyActions (state : Option JSObj) (acts : List DBReducerAction) :
    Option JSObj :=
  acts.foldl dbReducer state

/-- The action dispatched by `onClose`: `setDB({ type: ActionType.reset })`
(no payload). -/
def resetAction : DBReducerAction :=
  ⟨ActionType.reset, []⟩

/-- An externally observable step taken by one of the component's handlers:
a dispatch to the draft reducer, a call to one of the external
collaborators, or a toast notification. -/
inductive ModalEvent where
  | dispatch : DBReducerAction → ModalEvent
  | hide : ModalEvent
  | addDangerToast : String → ModalEvent
  | callTestConnection : JSObj → ModalEvent
  | callUpdateResource : JSVal → JSObj → ModalEvent
  | callCreateResource : JSObj → ModalEvent
  | callOnDatabaseAdd : ModalEvent
deriving Repr

/-- `disableSave = !(db?.database_name?.trim() && db?.sqlalchemy_uri)`. -/
def disableSave (db : Option JSObj) : Bool :=
  !(jsAnd (jsTrimOpt (jsGet db "database_name"))
      (jsGet db "sqlalchemy_uri")).truthy

/-- The `connection` object literal assembled by `testConnection`: every
optional field falls back to `undefined` (not `''` / `false`) when its
draft value is falsy. -/
def connectionOf (db : Option JSObj) : JSObj :=
  [("sqlalchemy_uri", jsOr (jsGet db "sqlalchemy_uri") (JSVal.str "")),
   ("database_name", jsOr (jsTrimOpt (jsGet db "database_name")) JSVal.undef),
   ("impersonate_user", jsOr (jsGet db "impersonate_user") JSVal.undef),
   ("extra", jsOr (jsGet db "extra") JSVal.undef),
   ("encrypted_extra", jsOr (jsGet db "encrypted_extra") JSVal.undef),
   ("server_cert", jsOr (jsGet db "server_cert") JSVal.undef)]

/-- `testConnection`: with a falsy `db?.sqlalchemy_uri` it only shows a
danger toast; otherwise it calls `testDatabaseConnection` with the
assembled `connection` payload. -/
def testConnection (db : Option JSObj) : List ModalEvent :=
  if !(jsGet db "sqlalchemy_uri").truthy then
    [ModalEvent.addDangerToast "Please enter a SQLAlchemy URI to test"]
  else
    [ModalEvent.callTestConnection (connectionOf db)]

/-- `onClose`: dispatch the reset action, then call the caller's `onHide`. -/
def onClose : List ModalEvent :=
  [ModalEvent.dispatch resetAction, ModalEvent.hide]

/-- The `.then` continuation shared by both save branches: on a truthy
resolved value, call `onDatabaseAdd` when the caller provided it, then run
`onClose`; on a falsy value, do nothing. -/
def saveContinuation (hasOnDatabaseAdd : Bool) (result : JSVal) :
    List ModalEvent :=
  if result.truthy then
    (if hasOnDatabaseAdd then [ModalEvent.callOnDatabaseAdd] else []) ++
      onClose
  else
    []

/-- `onSave`.  `isEditMode` is `database !== null`, fixed at mount.
`result` is the value the external `updateResource` / `createResource`
promise resolves with, so the returned list covers the whole
click-to-continuation interaction.  In edit mode the spread
`{ ...(db as DatabaseObject) }` of a `null` draft is the empty object, and
a falsy `db?.id` means no call at all; in create mode a `null` draft fails
the `else if (db)` guard.  The create branch first performs the in-place
mutation `db.database_name = db?.database_name?.trim()`. -/
def onSave (isEditMode : Bool) (db : Option JSObj)
    (hasOnDatabaseAdd : Bool) (result : JSVal) : List ModalEvent :=
  if isEditMode then
    let update := (db.getD []).remove "id"
    if (jsGet db "id").truthy then
      ModalEvent.callUpdateResource (jsGet db "id") update ::
        saveContinuation hasOnDatabaseAdd result
    else
      []
  else
    match db with
    | none => []
    | some o =>
      let mutated := o.set "database_name" (jsTrimOpt (o.get "database_name"))
      ModalEvent.callCreateResource mutated ::
        saveContinuation hasOnDatabaseAdd result

/-- The action dispatched by the `dbFetched` effect: destructure exactly
`extra`, `impersonate_user`, `server_cert`, `sqlalchemy_uri` out of the
fetched record and bulk-merge an object with exactly those four keys. -/
def fetchedAction (dbFetched : JSObj) : DBReducerAction :=
  ⟨ActionType.fetched,
   [("extra", dbFetched.get "extra"),
    ("impersonate_user", dbFetched.get "impersonate_user"),
    ("server_cert", dbFetched.get "server_cert"),
    ("sqlalchemy_uri", dbFetched.get "sqlalchemy_uri")]⟩

/-- The three field-change action tags. -/
def isFieldChange (a : DBReducerAction) : Prop :=
  a.type = ActionType.textChange ∨ a.type = ActionType.inputChange ∨
    a.type = ActionType.editorChange

/-- The value a field-change case of `dbReducer` stores under the payload's
`name` key: the `checked` flag for checkbox input changes, the `json` blob
for editor changes, and the `value` string otherwise. -/
def storedValue (a : DBReducerAction) : JSVal :=
  if a.type = ActionType.inputChange then
    if isCheckboxType (a.payload.get "type") then a.payload.get "checked"
    else a.payload.get "value"
  else if a.type = ActionType.editorChange then a.payload.get "json"
  else a.payload.get "value"

/-- Well-typedness of the `database_name` field of a draft, as declared by
`Partial<DatabaseObject>` (`database_name?: string`): the field is either
absent/`undefined` or a string. -/
def NameIsStringOrAbsent (s : Option JSObj) : Prop :=
  jsGet s "database_name" = JSVal.undef ∨
    ∃ n, jsGet s "database_name" = JSVal.str n

/-! ### Lemmas about the JS-object model -/

theorem head_dropWhile_false (p : Char → Bool) :
    ∀ (l : List Char) (c : Char) (cs : List Char),
      l.dropWhile p = c :: cs → p c = false := by
  intro l
  induction l with
  | nil => intro c cs h; simp [List.dropWhile] at h
  | cons a t ih =>
    intro c cs h
    rw [List.dropWhile_cons] at h
    by_cases ha : p a
    · rw [if_pos ha] at h
      exact ih c cs h
    · rw [if_neg ha] at h
      injection h with h1 h2
      subst h1
      simpa using ha

theorem dropWhile_rdropWhile_dropWhile (p : Char → Bool) (l : List Char) :
    ((l.dropWhile p).rdropWhile p).dropWhile p =
      (l.dropWhile p).rdropWhile p := by
  rcases h : (l.dropWhile p).rdropWhile p with _ | ⟨c, cs⟩
  · simp
  · have hpre := List.rdropWhile_prefix p (l.dropWhile p)
    rw [h] at hpre
    obtain ⟨t, ht⟩ := hpre
    have hd : l.dropWhile p = c :: (cs ++ t) := by
      rw [← ht]; simp
    have hc : p c = false := head_dropWhile_false p l c (cs ++ t) hd
    rw [List.dropWhile_cons, if_neg (by simp [hc])]

/-- `trim` is idempotent: a trimmed string has no leading or trailing
whitespace left to remove. -/
theorem jsTrim_idem (s : String) : jsTrim (jsTrim s) = jsTrim s := by
  unfold jsTrim
  dsimp only
  rw [dropWhile_rdropWhile_dropWhile, List.rdropWhile_idempotent]

theorem find?_filter_other (o : JSObj) (k k' : String) (h : k' ≠ k) :
    (o.filter fun p => p.1 != k).find? (fun p => p.1 == k') =
      o.find? (fun p => p.1 == k') := by
  induction o with
  | nil => rfl
  | cons q rest ih =>
    rw [List.filter_cons]
    by_cases hq : q.1 = k
    · have h2 : ¬ (q.1 == k') = true := by
        simp only [beq_iff_eq, hq]
        exact fun hh => h hh.symm
      rw [if_neg (by simp [hq]), ih,
        List.find?_cons_of_neg (p := fun r => r.1 == k') (a := q) rest h2]
    · rw [if_pos (by simp [hq])]
      by_cases hq' : q.1 = k'
      · rw [List.find?_cons_of_pos (p := fun r => r.1 == k') (a := q) _
            (by simp [hq']),
          List.find?_cons_of_pos (p := fun r => r.1 == k') (a := q) rest
            (by simp [hq'])]
      · rw [List.find?_cons_of_neg (p := fun r => r.1 == k') (a := q) _
            (by simp [hq']), ih,
          List.find?_cons_of_neg (p := fun r => r.1 == k') (a := q) rest
            (by simp [hq'])]

theorem JSObj.get_set_self (o : JSObj) (k : String) (v : JSVal) :
    (o.set k v).get k = v := by
  simp [JSObj.set, JSObj.get]

theorem JSObj.get_set_other (o : JSObj) (k k' : String) (v : JSVal)
    (h : k' ≠ k) : (o.set k v).get k' = o.get k' := by
  have hk : ¬ ((k, v).1 == k') = true := by
    simp only [beq_iff_eq]
    exact fun hh => h hh.symm
  simp only [JSObj.set, JSObj.get]
  rw [List.find?_cons_of_neg (p := fun r => r.1 == k') (a := (k, v)) _ hk,
    find?_filter_other o k k' h]

theorem JSObj.get_remove_other (o : JSObj) (k k' : String) (h : k' ≠ k) :
    (o.remove k).get k' = o.get k' := by
  simp only [JSObj.remove, JSObj.get]
  rw [find?_filter_other o k k' h]

theorem JSObj.hasKey_remove_self (o : JSObj) (k : String) :
    (o.remove k).hasKey k = false := by
  simp only [JSObj.remove, JSObj.hasKey]
  rw [List.any_eq_false]
  intro p hp
  rw [List.mem_filter] at hp
  simpa using hp.2

theorem jsOr_of_truthy {a : JSVal} (b : JSVal) (h : a.truthy = true) :
    jsOr a b = a := by
  simp [jsOr, h]

theorem jsOr_of_falsy {a : JSVal} (b : JSVal) (h : a.truthy = false) :
    jsOr a b = b := by
  simp [jsOr, h]

theorem truthy_ne_undef {a : JSVal} (h : a.truthy = true) :
    a ≠ JSVal.undef := by
  intro he
  subst he
  simp [JSVal.truthy] at h

theorem jsOr_str_ne_undef (a : JSVal) (t : String) :
    jsOr a (JSVal.str t) ≠ JSVal.undef := by
  by_cases h : a.truthy
  · rw [jsOr_of_truthy _ h]
    exact truthy_ne_undef h
  · rw [jsOr_of_falsy _ (by simpa using h)]
    exact fun hh => JSVal.noConfusion hh

theorem jsTrimOpt_falsy {v : JSVal} (h : v.truthy = false) :
    (jsTrimOpt v).truthy = false := by
  cases v with
  | undef => rfl
  | str s =>
    have hs : s = "" := by simpa [JSVal.truthy] using h
    subst hs
    decide
  | boolV b => exact h
  | numV n => exact h
  | objV o => simp [JSVal.truthy] at h

/-! ### Lemmas about the normalized base and the reducer's cases -/

theorem trimmedStateOf_uri (s : Option JSObj) :
    (trimmedStateOf s).get "sqlalchemy_uri" =
      jsOr (jsGet s "sqlalchemy_uri") (JSVal.str "") :=
  JSObj.get_set_self _ _ _

theorem trimmedStateOf_name (s : Option JSObj) :
    (trimmedStateOf s).get "database_name" =
      jsOr (jsTrimOpt (jsGet s "database_name")) (JSVal.str "") := by
  unfold trimmedStateOf
  rw [JSObj.get_set_other _ _ _ _ (by decide)]
  exact JSObj.get_set_self _ _ _

theorem trimmedStateOf_other (s : Option JSObj) (k : String)
    (h1 : k ≠ "database_name") (h2 : k ≠ "sqlalchemy_uri") :
    (trimmedStateOf s).get k = jsGet s k := by
  unfold trimmedStateOf
  rw [JSObj.get_set_other _ _ _ _ h2, JSObj.get_set_other _ _ _ _ h1]
  cases s with
  | none => rfl
  | some o => rfl

theorem trimmedStateOf_uri_defined (s : Option JSObj) :
    (trimmedStateOf s).get "sqlalchemy_uri" ≠ JSVal.undef := by
  rw [trimmedStateOf_uri]
  exact jsOr_str_ne_undef _ _

theorem trimmedStateOf_name_clean (s : Option JSObj)
    (h : NameIsStringOrAbsent s) :
    ∃ n, (trimmedStateOf s).get "database_name" = JSVal.str n ∧
      jsTrim n = n := by
  rw [trimmedStateOf_name]
  rcases h with h | ⟨n0, h⟩
  · rw [h]
    exact ⟨"", rfl, by decide⟩
  · rw [h]
    by_cases hn : jsTrim n0 = ""
    · refine ⟨"", ?_, by decide⟩
      show jsOr (JSVal.str (jsTrim n0)) (JSVal.str "") = JSVal.str ""
      rw [hn]
      rfl
    · refine ⟨jsTrim n0, ?_, jsTrim_idem n0⟩
      show jsOr (JSVal.str (jsTrim n0)) (JSVal.str "") =
        JSVal.str (jsTrim n0)
      exact jsOr_of_truthy _ (by simp [JSVal.truthy, hn])

theorem dbReducer_fieldChange (s : Option JSObj) (a : DBReducerAction)
    (h : isFieldChange a) :
    dbReducer s a =
      some ((trimmedStateOf s).set (a.payload.get "name").asKey
        (storedValue a)) := by
  rcases h with h | h | h
  · simp [dbReducer, storedValue, h, ActionType.textChange,
      ActionType.inputChange, ActionType.editorChange]
  · by_cases hc : isCheckboxType (a.payload.get "type") = true <;>
      simp [dbReducer, storedValue, h, hc, ActionType.textChange,
        ActionType.inputChange, ActionType.editorChange]
  · simp [dbReducer, storedValue, h, ActionType.textChange,
      ActionType.inputChange, ActionType.editorChange]

theorem dbReducer_bulk (s : Option JSObj) (a : DBReducerAction)
    (h : a.type = ActionType.initialLoad ∨ a.type = ActionType.fetched) :
    dbReducer s a = some ((trimmedStateOf s).spread a.payload) := by
  rcases h with h | h <;>
    simp [dbReducer, h, ActionType.textChange, ActionType.inputChange,
      ActionType.editorChange, ActionType.initialLoad, ActionType.fetched]

theorem dbReducer_resetCase (s : Option JSObj) (p : JSObj) :
    dbReducer s ⟨ActionType.reset, p⟩ = some [] := by
  simp [dbReducer, ActionType.textChange, ActionType.inputChange,
    ActionType.editorChange, ActionType.initialLoad, ActionType.fetched,
    ActionType.reset]

theorem jsGet_some (o : JSObj) (k : String) : jsGet (some o) k = o.get k :=
  rfl

/-! ### Claim theorems -/

/-- C9: dispatching a reset action to the draft reducer returns an empty
but non-null draft (every key of it reads `undefined`), ignoring the
current state entirely. -/
theorem dbReducer_reset_empty (s : Option JSObj) (p : JSObj) :
    dbReducer s ⟨ActionType.reset, p⟩ = some [] ∧
      (some ([] : JSObj) ≠ (none : Option JSObj)) ∧
      ∀ k, JSObj.get [] k = JSVal.undef :=
  ⟨dbReducer_resetCase s p, by simp, fun _ => rfl⟩

/-- C10: the draft reducer is total — for every input state (including the
null initial state) and every action it returns an object, never null —
and any action whose numeric tag is not one of the six defined variants
falls through to the default branch, behaving identically to an explicit
reset and returning the empty draft. -/
theorem dbReducer_total_default_reset (s : Option JSObj)
    (a : DBReducerAction) :
    (dbReducer s a).isSome = true ∧
      (a.type ∉ ([0, 1, 2, 3, 4, 5] : List Nat) →
        dbReducer s a = some [] ∧
          dbReducer s a = dbReducer s ⟨ActionType.reset, a.payload⟩) := by
  constructor
  · simp only [dbReducer]
    repeat' split
    all_goals rfl
  · intro hna
    simp only [List.mem_cons, List.not_mem_nil, or_false, not_or] at hna
    obtain ⟨h0, h1, h2, h3, h4, h5⟩ := hna
    constructor <;>
      simp [dbReducer, ActionType.textChange, ActionType.inputChange,
        ActionType.editorChange, ActionType.initialLoad, ActionType.fetched,
        ActionType.reset, h0, h1, h2, h3, h4]

/-- C10 witness: an action with the undefined tag 9 is accepted and behaves
exactly like an explicit reset. -/
theorem dbReducer_total_default_reset_app :
    dbReducer none ⟨9, []⟩ = some [] ∧
      dbReducer none ⟨9, []⟩ = dbReducer none ⟨ActionType.reset, []⟩ :=
  (dbReducer_total_default_reset none ⟨9, []⟩).2 (by decide)

/-- C7: `onClose` dispatches the reset action to the draft reducer before
invoking the external hide callback, and applying that dispatched action to
any draft state yields the empty reset draft — so after close the draft is
empty independently of prior edits. -/
theorem onClose_reset_before_hide :
    onClose = [ModalEvent.dispatch resetAction, ModalEvent.hide] ∧
      ∀ s, dbReducer s resetAction = some [] :=
  ⟨rfl, fun s => dbReducer_resetCase s []⟩

/-- C8: an input-element change whose originating control type is
`'checkbox'` stores the payload's boolean `checked` state under the field
name (and a boolean `true` is a different value from the string `"true"`),
while any non-checkbox input-element change stores the payload's `value`. -/
theorem dbReducer_inputChange_checkbox (s : Option JSObj) (p : JSObj) :
    (isCheckboxType (p.get "type") = true →
      jsGet (dbReducer s ⟨ActionType.inputChange, p⟩) (p.get "name").asKey =
        p.get "checked") ∧
    (isCheckboxType (p.get "type") = false →
      jsGet (dbReducer s ⟨ActionType.inputChange, p⟩) (p.get "name").asKey =
        p.get "value") ∧
    JSVal.boolV true ≠ JSVal.str "true" := by
  refine ⟨?_, ?_, fun hh => JSVal.noConfusion hh⟩
  · intro hc
    rw [dbReducer_fieldChange s ⟨ActionType.inputChange, p⟩
        (Or.inr (Or.inl rfl)), jsGet_some]
    show ((trimmedStateOf s).set (JSObj.get p "name").asKey
      (storedValue ⟨ActionType.inputChange, p⟩)).get _ = _
    rw [show storedValue ⟨ActionType.inputChange, p⟩ = JSObj.get p "checked"
        by simp [storedValue, hc]]
    exact JSObj.get_set_self _ _ _
  · intro hc
    rw [dbReducer_fieldChange s ⟨ActionType.inputChange, p⟩
        (Or.inr (Or.inl rfl)), jsGet_some]
    show ((trimmedStateOf s).set (JSObj.get p "name").asKey
      (storedValue ⟨ActionType.inputChange, p⟩)).get _ = _
    rw [show storedValue ⟨ActionType.inputChange, p⟩ = JSObj.get p "value"
        by simp [storedValue, hc]]
    exact JSObj.get_set_self _ _ _

/-- C8 witness: a checkbox change with `checked = true` on the
`impersonate_user` field stores the boolean `true`. -/
theorem dbReducer_inputChange_checkbox_app :
    jsGet (dbReducer none ⟨ActionType.inputChange,
        [("type", JSVal.str "checkbox"),
         ("name", JSVal.str "impersonate_user"),
         ("checked", JSVal.boolV true)]⟩)
      "impersonate_user" = JSVal.boolV true :=
  (dbReducer_inputChange_checkbox none
    [("type", JSVal.str "checkbox"),
     ("name", JSVal.str "impersonate_user"),
     ("checked", JSVal.boolV true)]).1 rfl

/-- C3: for a draft whose name and URI fields are strings, save is disabled
exactly when the trimmed name is empty or the URI is empty — a pure
function of the current draft — and both being non-empty enables save. -/
theorem disableSave_iff_empty (db : Option JSObj) (n u : String)
    (h1 : jsGet db "database_name" = JSVal.str n)
    (h2 : jsGet db "sqlalchemy_uri" = JSVal.str u) :
    (disableSave db = true ↔ (jsTrim n = "" ∨ u = "")) ∧
      (jsTrim n ≠ "" → u ≠ "" → disableSave db = false) := by
  constructor
  · unfold disableSave
    rw [h1, h2]
    show (!(jsAnd (JSVal.str (jsTrim n)) (JSVal.str u)).truthy) = true ↔ _
    by_cases hn : jsTrim n = ""
    · simp [jsAnd, JSVal.truthy, hn]
    · simp [jsAnd, JSVal.truthy, hn]
  · intro hn hu
    unfold disableSave
    rw [h1, h2]
    show (!(jsAnd (JSVal.str (jsTrim n)) (JSVal.str u)).truthy) = false
    simp [jsAnd, JSVal.truthy, hn, hu]

/-- C3 witness: empty draft fields disable save; setting name and URI to
non-empty strings enables it. -/
theorem disableSave_iff_empty_app :
    disableSave (some [("database_name", JSVal.str ""),
        ("sqlalchemy_uri", JSVal.str "")]) = true ∧
      disableSave (some [("database_name", JSVal.str "My DB"),
        ("sqlalchemy_uri", JSVal.str "postgresql://u:p@host/db")]) = false :=
  ⟨(disableSave_iff_empty (some [("database_name", JSVal.str ""),
        ("sqlalchemy_uri", JSVal.str "")]) "" "" rfl rfl).1.mpr
      (Or.inl (by decide)),
   (disableSave_iff_empty (some [("database_name", JSVal.str "My DB"),
        ("sqlalchemy_uri", JSVal.str "postgresql://u:p@host/db")])
      "My DB" "postgresql://u:p@host/db" rfl rfl).2
     (by decide) (by decide)⟩

/-- C4: with a falsy (empty or absent) URI, test-connection only reports a
user-facing error and never calls the external tester; with a truthy URI it
calls the tester exactly once with the assembled payload, in which every
optional field whose draft value is falsy is `undefined` ("omit") rather
than an empty string or `false`, and truthy optional fields keep their
draft values (the name trimmed). -/
theorem testConnection_spec (db : Option JSObj) :
    ((jsGet db "sqlalchemy_uri").truthy = false →
      testConnection db =
        [ModalEvent.addDangerToast "Please enter a SQLAlchemy URI to test"]) ∧
    ((jsGet db "sqlalchemy_uri").truthy = true →
      testConnection db =
        [ModalEvent.callTestConnection (connectionOf db)]) ∧
    (connectionOf db).get "sqlalchemy_uri" =
      jsOr (jsGet db "sqlalchemy_uri") (JSVal.str "") ∧
    (connectionOf db).get "database_name" =
      jsOr (jsTrimOpt (jsGet db "database_name")) JSVal.undef ∧
    ((jsGet db "database_name").truthy = false →
      (connectionOf db).get "database_name" = JSVal.undef) ∧
    ((jsGet db "impersonate_user").truthy = false →
      (connectionOf db).get "impersonate_user" = JSVal.undef) ∧
    ((jsGet db "impersonate_user").truthy = true →
      (connectionOf db).get "impersonate_user" =
        jsGet db "impersonate_user") ∧
    ((jsGet db "extra").truthy = false →
      (connectionOf db).get "extra" = JSVal.undef) ∧
    ((jsGet db "extra").truthy = true →
      (connectionOf db).get "extra" = jsGet db "extra") ∧
    ((jsGet db "encrypted_extra").truthy = false →
      (connectionOf db).get "encrypted_extra" = JSVal.undef) ∧
    ((jsGet db "encrypted_extra").truthy = true →
      (connectionOf db).get "encrypted_extra" =
        jsGet db "encrypted_extra") ∧
    ((jsGet db "server_cert").truthy = false →
      (connectionOf db).get "server_cert" = JSVal.undef) ∧
    ((jsGet db "server_cert").truthy = true →
      (connectionOf db).get "server_cert" = jsGet db "server_cert") := by
  refine ⟨?_, ?_, rfl, rfl, ?_, ?_, ?_, ?_, ?_, ?_, ?_, ?_, ?_⟩
  · intro hf
    simp [testConnection, hf]
  · intro ht
    simp [testConnection, ht]
  · intro hf
    show jsOr (jsTrimOpt (jsGet db "database_name")) JSVal.undef = JSVal.undef
    exact jsOr_of_falsy _ (jsTrimOpt_falsy hf)
  · intro hf
    show jsOr (jsGet db "impersonate_user") JSVal.undef = JSVal.undef
    exact jsOr_of_falsy _ hf
  · intro ht
    show jsOr (jsGet db "impersonate_user") JSVal.undef =
      jsGet db "impersonate_user"
    exact jsOr_of_truthy _ ht
  · intro hf
    show jsOr (jsGet db "extra") JSVal.undef = JSVal.undef
    exact jsOr_of_falsy _ hf
  · intro ht
    show jsOr (jsGet db "extra") JSVal.undef = jsGet db "extra"
    exact jsOr_of_truthy _ ht
  · intro hf
    show jsOr (jsGet db "encrypted_extra") JSVal.undef = JSVal.undef
    exact jsOr_of_falsy _ hf
  · intro ht
    show jsOr (jsGet db "encrypted_extra") JSVal.undef =
      jsGet db "encrypted_extra"
    exact jsOr_of_truthy _ ht
  · intro hf
    show jsOr (jsGet db "server_cert") JSVal.undef = JSVal.undef
    exact jsOr_of_falsy _ hf
  · intro ht
    show jsOr (jsGet db "server_cert") JSVal.undef = jsGet db "server_cert"
    exact jsOr_of_truthy _ ht

/-- C4 witness: an empty URI yields only the error toast; a non-empty URI
calls the tester once, with the falsy `encrypted_extra` omitted
(`undefined`). -/
theorem testConnection_spec_app :
    testConnection (some [("sqlalchemy_uri", JSVal.str "")]) =
        [ModalEvent.addDangerToast "Please enter a SQLAlchemy URI to test"] ∧
      testConnection (some [("sqlalchemy_uri", JSVal.str "mysql://h/db")]) =
        [ModalEvent.callTestConnection
          (connectionOf (some [("sqlalchemy_uri", JSVal.str "mysql://h/db")]))] ∧
      (connectionOf (some [("sqlalchemy_uri",
        JSVal.str "mysql://h/db")])).get "encrypted_extra" = JSVal.undef :=
  ⟨(testConnection_spec (some [("sqlalchemy_uri", JSVal.str "")])).1 rfl,
   (testConnection_spec
     (some [("sqlalchemy_uri", JSVal.str "mysql://h/db")])).2.1 rfl,
   (testConnection_spec
     (some [("sqlalchemy_uri",
       JSVal.str "mysql://h/db")])).2.2.2.2.2.2.2.2.2.1 rfl⟩

/-- C5: save in edit mode is a silent no-op (no event at all) when the
draft carries no truthy persisted id; with an id, the id key is stripped
from the update payload (all other fields kept) and the external update is
called; a truthy result notifies the caller (when the callback is
provided) and runs the close sequence, while a falsy result leaves the
modal open with no further event. -/
theorem onSave_edit_spec (db : Option JSObj) (hasAdd : Bool)
    (result : JSVal) :
    ((jsGet db "id").truthy = false → onSave true db hasAdd result = []) ∧
    ((jsGet db "id").truthy = true →
      ((db.getD []).remove "id").hasKey "id" = false ∧
      (∀ k, k ≠ "id" →
        ((db.getD []).remove "id").get k = (db.getD []).get k) ∧
      (result.truthy = true →
        onSave true db hasAdd result =
          ModalEvent.callUpdateResource (jsGet db "id")
              ((db.getD []).remove "id") ::
            ((if hasAdd then [ModalEvent.callOnDatabaseAdd] else []) ++
              onClose)) ∧
      (result.truthy = false →
        onSave true db hasAdd result =
          [ModalEvent.callUpdateResource (jsGet db "id")
            ((db.getD []).remove "id")])) := by
  constructor
  · intro hf
    simp [onSave, hf]
  · intro ht
    refine ⟨JSObj.hasKey_remove_self _ _,
      fun k hk => JSObj.get_remove_other _ _ _ hk, ?_, ?_⟩
    · intro hr
      simp [onSave, saveContinuation, ht, hr]
    · intro hr
      simp [onSave, saveContinuation, ht, hr]

/-- C5 witness: without an id the edit-mode save emits nothing; with
`id = 7` it calls update with the id stripped, and on success notifies the
caller and closes. -/
theorem onSave_edit_spec_app :
    onSave true (some [("database_name", JSVal.str "Prod")]) true
        (JSVal.numV 7) = [] ∧
      onSave true (some [("id", JSVal.numV 7),
          ("database_name", JSVal.str "Prod")]) true (JSVal.boolV true) =
        [ModalEvent.callUpdateResource (JSVal.numV 7)
            [("database_name", JSVal.str "Prod")],
          ModalEvent.callOnDatabaseAdd,
          ModalEvent.dispatch resetAction, ModalEvent.hide] ∧
      (JSObj.remove [("id", JSVal.numV 7),
          ("database_name", JSVal.str "Prod")] "id").hasKey "id" =
        false :=
  ⟨(onSave_edit_spec (some [("database_name", JSVal.str "Prod")]) true
      (JSVal.numV 7)).1 rfl,
   by
    have h := ((onSave_edit_spec (some [("id", JSVal.numV 7),
      ("database_name", JSVal.str "Prod")]) true (JSVal.boolV true)).2
      rfl).2.2.1 rfl
    exact h,
   ((onSave_edit_spec (some [("id", JSVal.numV 7),
      ("database_name", JSVal.str "Prod")]) true (JSVal.boolV true)).2
      rfl).1⟩

/-- C6: save in create mode first trims the draft's name in place, then
calls the external create operation with that mutated draft; on a truthy
identifier result it notifies the caller (when the callback is provided)
and runs the close sequence, whose dispatched reset action empties the
draft; on a falsy result only the create call happens and the modal stays
open. -/
theorem onSave_create_spec (o : JSObj) (hasAdd : Bool) (result : JSVal) :
    (result.truthy = true →
      onSave false (some o) hasAdd result =
        ModalEvent.callCreateResource
            (o.set "database_name" (jsTrimOpt (o.get "database_name"))) ::
          ((if hasAdd then [ModalEvent.callOnDatabaseAdd] else []) ++
            onClose)) ∧
    (result.truthy = false →
      onSave false (some o) hasAdd result =
        [ModalEvent.callCreateResource
          (o.set "database_name" (jsTrimOpt (o.get "database_name")))]) ∧
    (o.set "database_name" (jsTrimOpt (o.get "database_name"))).get
        "database_name" = jsTrimOpt (o.get "database_name") ∧
    (∀ s, dbReducer s resetAction = some []) := by
  refine ⟨?_, ?_, JSObj.get_set_self _ _ _, fun s => dbReducer_resetCase s []⟩
  · intro hr
    simp [onSave, saveContinuation, hr]
  · intro hr
    simp [onSave, saveContinuation, hr]

/-- C6 witness: creating with name `"My DB"` and a URI calls create with
exactly those fields and, on a truthy id result, notifies the caller and
runs the close sequence. -/
theorem onSave_create_spec_app :
    onSave false (some [("database_name", JSVal.str "My DB"),
        ("sqlalchemy_uri", JSVal.str "postgresql://u:p@host/db")]) true
        (JSVal.numV 3) =
      [ModalEvent.callCreateResource
          [("database_name", JSVal.str "My DB"),
           ("sqlalchemy_uri", JSVal.str "postgresql://u:p@host/db")],
        ModalEvent.callOnDatabaseAdd,
        ModalEvent.dispatch resetAction, ModalEvent.hide] := by
  have h := (onSave_create_spec [("database_name", JSVal.str "My DB"),
    ("sqlalchemy_uri", JSVal.str "postgresql://u:p@host/db")] true
    (JSVal.numV 3)).1 rfl
  rw [h]
  rfl

/-- C2 counterexample: a draft whose `database_name` carries surrounding
whitespace (reachable by editing the name while the fetch is in flight) is
changed by the fetched bulk-merge — the reducer's unconditional
normalization trims it — so `database_name` is not left untouched by the
second merge. -/
theorem dbReducer_fetched_trims_name_cex :
    jsGet (some [("database_name", JSVal.str " Prod "),
        ("id", JSVal.numV 7)]) "database_name" = JSVal.str " Prod " ∧
      jsGet (dbReducer (some [("database_name", JSVal.str " Prod "),
          ("id", JSVal.numV 7)])
        (fetchedAction [("sqlalchemy_uri", JSVal.str "mysql://new")]))
        "database_name" = JSVal.str "Prod" ∧
      JSVal.str "Prod" ≠ JSVal.str " Prod " := by
  refine ⟨rfl, rfl, ?_⟩
  intro hh
  injection hh with h2
  exact absurd h2 (by decide)

/-- C2 (amended): the fetched bulk-merge sets exactly the four designated
fields to the fetched values; every other field of the draft is unchanged
except `database_name`, which the reducer's unconditional normalization
trims (a name already free of surrounding whitespace, such as `"Prod"`, is
left unchanged). -/
theorem dbReducer_fetched_frame (s : Option JSObj) (f : JSObj) :
    jsGet (dbReducer s (fetchedAction f)) "extra" = f.get "extra" ∧
    jsGet (dbReducer s (fetchedAction f)) "impersonate_user" =
      f.get "impersonate_user" ∧
    jsGet (dbReducer s (fetchedAction f)) "server_cert" =
      f.get "server_cert" ∧
    jsGet (dbReducer s (fetchedAction f)) "sqlalchemy_uri" =
      f.get "sqlalchemy_uri" ∧
    (∀ k, k ≠ "extra" → k ≠ "impersonate_user" → k ≠ "server_cert" →
      k ≠ "sqlalchemy_uri" → k ≠ "database_name" →
      jsGet (dbReducer s (fetchedAction f)) k = jsGet s k) ∧
    (∀ n, jsGet s "database_name" = JSVal.str n → jsTrim n = n →
      jsGet (dbReducer s (fetchedAction f)) "database_name" =
        JSVal.str n) := by
  have hb := dbReducer_bulk s (fetchedAction f) (Or.inr rfl)
  have hsp : (trimmedStateOf s).spread (fetchedAction f).payload =
      ((((trimmedStateOf s).set "extra" (f.get "extra")).set
          "impersonate_user" (f.get "impersonate_user")).set
        "server_cert" (f.get "server_cert")).set
          "sqlalchemy_uri" (f.get "sqlalchemy_uri") := rfl
  rw [hb]
  simp only [jsGet_some]
  rw [hsp]
  refine ⟨?_, ?_, ?_, JSObj.get_set_self _ _ _, ?_, ?_⟩
  · rw [JSObj.get_set_other _ _ _ _ (by decide),
      JSObj.get_set_other _ _ _ _ (by decide),
      JSObj.get_set_other _ _ _ _ (by decide)]
    exact JSObj.get_set_self _ _ _
  · rw [JSObj.get_set_other _ _ _ _ (by decide),
      JSObj.get_set_other _ _ _ _ (by decide)]
    exact JSObj.get_set_self _ _ _
  · rw [JSObj.get_set_other _ _ _ _ (by decide)]
    exact JSObj.get_set_self _ _ _
  · intro k h1 h2 h3 h4 h5
    rw [JSObj.get_set_other _ _ _ _ h4, JSObj.get_set_other _ _ _ _ h3,
      JSObj.get_set_other _ _ _ _ h2, JSObj.get_set_other _ _ _ _ h1]
    exact trimmedStateOf_other s k h5 h4
  · intro n hn hcl
    rw [JSObj.get_set_other _ _ _ _ (by decide),
      JSObj.get_set_other _ _ _ _ (by decide),
      JSObj.get_set_other _ _ _ _ (by decide),
      JSObj.get_set_other _ _ _ _ (by decide), trimmedStateOf_name, hn]
    show jsOr (JSVal.str (jsTrim n)) (JSVal.str "") = JSVal.str n
    rw [hcl]
    by_cases hne : n = ""
    · rw [hne]
      rfl
    · exact jsOr_of_truthy _ (by simp [JSVal.truthy, hne])

/-- C2 witness: with an edit-seeded draft `{id: 7, database_name: "Prod"}`
and a fetch result carrying a new URI, the merge overwrites
`sqlalchemy_uri` while `id` and the already-trimmed `database_name` are
unchanged. -/
theorem dbReducer_fetched_frame_app :
    jsGet (dbReducer (some [("id", JSVal.numV 7),
        ("database_name", JSVal.str "Prod")])
      (fetchedAction [("sqlalchemy_uri", JSVal.str "mysql://new")]))
        "id" = JSVal.numV 7 ∧
      jsGet (dbReducer (some [("id", JSVal.numV 7),
          ("database_name", JSVal.str "Prod")])
        (fetchedAction [("sqlalchemy_uri", JSVal.str "mysql://new")]))
          "database_name" = JSVal.str "Prod" ∧
      jsGet (dbReducer (some [("id", JSVal.numV 7),
          ("database_name", JSVal.str "Prod")])
        (fetchedAction [("sqlalchemy_uri", JSVal.str "mysql://new")]))
          "sqlalchemy_uri" = JSVal.str "mysql://new" :=
  ⟨((dbReducer_fetched_frame (some [("id", JSVal.numV 7),
      ("database_name", JSVal.str "Prod")])
      [("sqlalchemy_uri", JSVal.str "mysql://new")]).2.2.2.2.1 "id"
      (by decide) (by decide) (by decide) (by decide) (by decide)).trans rfl,
   (dbReducer_fetched_frame (some [("id", JSVal.numV 7),
      ("database_name", JSVal.str "Prod")])
      [("sqlalchemy_uri", JSVal.str "mysql://new")]).2.2.2.2.2 "Prod" rfl
      (by decide),
   ((dbReducer_fetched_frame (some [("id", JSVal.numV 7),
      ("database_name", JSVal.str "Prod")])
      [("sqlalchemy_uri", JSVal.str "mysql://new")]).2.2.2.1).trans rfl⟩

/-- C1 counterexample: a single text-change action that stores a value with
surrounding whitespace into `database_name` leaves the resulting draft's
name with that whitespace — normalization only cleans the state carried
into the next transition, not the value the current action stores. -/
theorem dbReducer_fieldChange_whitespace_cex :
    jsGet (applyActions none
        [⟨ActionType.textChange,
          [("name", JSVal.str "database_name"),
           ("value", JSVal.str " x ")]⟩]) "database_name" =
        JSVal.str " x " ∧
      jsTrim " x " ≠ " x " :=
  ⟨rfl, by decide⟩

/-- C1 (amended): for every draft state whose name field is well-typed and
every non-empty sequence of field-change actions in which every action
targeting `database_name` stores an already-trimmed string and every
action targeting `sqlalchemy_uri` stores a defined value, the resulting
draft's name is a string with no leading or trailing whitespace and its
URI is never `undefined` — the normalization of the current draft runs
unconditionally before each action's specific effect. -/
theorem dbReducer_fieldChange_normalized (acts : List DBReducerAction) :
    ∀ s : Option JSObj,
      (∀ a ∈ acts, isFieldChange a) →
      (∀ a ∈ acts, (a.payload.get "name").asKey = "database_name" →
        ∃ n, storedValue a = JSVal.str n ∧ jsTrim n = n) →
      (∀ a ∈ acts, (a.payload.get "name").asKey = "sqlalchemy_uri" →
        storedValue a ≠ JSVal.undef) →
      NameIsStringOrAbsent s →
      acts ≠ [] →
      ∃ r, applyActions s acts = some r ∧
        (∃ n, r.get "database_name" = JSVal.str n ∧ jsTrim n = n) ∧
        r.get "sqlalchemy_uri" ≠ JSVal.undef := by
  induction acts with
  | nil =>
    intro s _ _ _ _ hne
    exact absurd rfl hne
  | cons a rest ih =>
    intro s hfc hname huri hwt _
    have hmem : a ∈ a :: rest := List.mem_cons_self a rest
    have hstep := dbReducer_fieldChange s a (hfc a hmem)
    have hgood :
        (∃ n, ((trimmedStateOf s).set (a.payload.get "name").asKey
            (storedValue a)).get "database_name" = JSVal.str n ∧
          jsTrim n = n) ∧
        ((trimmedStateOf s).set (a.payload.get "name").asKey
            (storedValue a)).get "sqlalchemy_uri" ≠ JSVal.undef := by
      constructor
      · by_cases hk : (a.payload.get "name").asKey = "database_name"
        · obtain ⟨n, hn, hcl⟩ := hname a hmem hk
          refine ⟨n, ?_, hcl⟩
          rw [hk, hn]
          exact JSObj.get_set_self _ _ _
        · rw [JSObj.get_set_other _ _ _ _ (fun hh => hk hh.symm)]
          exact trimmedStateOf_name_clean s hwt
      · by_cases hk : (a.payload.get "name").asKey = "sqlalchemy_uri"
        · rw [hk, JSObj.get_set_self]
          exact huri a hmem hk
        · rw [JSObj.get_set_other _ _ _ _ (fun hh => hk hh.symm)]
          exact trimmedStateOf_uri_defined s
    rcases rest with _ | ⟨b, rest'⟩
    · refine ⟨_, ?_, hgood.1, hgood.2⟩
      show applyActions s [a] = some _
      rw [show applyActions s [a] = dbReducer s a from rfl, hstep]
    · obtain ⟨r, hr, hgn, hgu⟩ := ih (some ((trimmedStateOf s).set
        (a.payload.get "name").asKey (storedValue a)))
        (fun x hx => hfc x (List.mem_cons_of_mem a hx))
        (fun x hx => hname x (List.mem_cons_of_mem a hx))
        (fun x hx => huri x (List.mem_cons_of_mem a hx))
        (Or.inr (by
          obtain ⟨n, hn, -⟩ := hgood.1
          exact ⟨n, hn⟩))
        (by simp)
      refine ⟨r, ?_, hgn, hgu⟩
      rw [show applyActions s (a :: b :: rest') =
        applyActions (dbReducer s a) (b :: rest') from rfl, hstep]
      exact hr

/-- C1 witness: from the null initial state, a text change to the
`backend` field leaves the draft with a trimmed (empty) name and a
defined (empty-string) URI. -/
theorem dbReducer_fieldChange_normalized_app :
    ∃ r, applyActions none
        [⟨ActionType.textChange,
          [("name", JSVal.str "backend"), ("value", JSVal.str "mysql")]⟩] =
        some r ∧
      (∃ n, r.get "database_name" = JSVal.str n ∧ jsTrim n = n) ∧
      r.get "sqlalchemy_uri" ≠ JSVal.undef :=
  dbReducer_fieldChange_normalized
    [⟨ActionType.textChange,
      [("name", JSVal.str "backend"), ("value", JSVal.str "mysql")]⟩] none
    (by
      intro a ha
      rw [List.mem_singleton] at ha
      subst ha
      exact Or.inl rfl)
    (by
      intro a ha hk
      rw [List.mem_singleton] at ha
      subst ha
      exact absurd hk (by decide))
    (by
      intro a ha hk
      rw [List.mem_singleton] at ha
      subst ha
      exact absurd hk (by decide))
    (Or.inl rfl)
    (by simp)

end DatabaseModal
